import Mathlib

/-!
Verification of the log-analysis pipeline in `src/ablation/run_kernel.py`
(TritonSanitizer-Experiments).

The Python functions `parse_triton_sanitizer`, `find_log_files`,
`analyze_configuration`, `format_test_name`, `export_to_csv` and the
speedup-summary part of `run_analysis` are embedded shallowly:

* a log line is a `List Char` (one line of the file, without the trailing
  newline);
* the regex searches of the source are implemented as executable scanning
  functions with `re.search` semantics (leftmost position at which the whole
  pattern matches; greedy sub-matches, which are deterministic for these
  patterns because the relevant character classes are disjoint);
* Python `float` values are modelled as exact rationals `ℚ` (no claim in
  scope depends on IEEE rounding), and `float(s)` applied to a string matched
  by `[\d.]+` succeeds exactly when the string has at most one dot and at
  least one digit;
* fallible code (the `ValueError` escaping to the per-file `except` clause,
  and the `TypeError`/`AttributeError` raised by `x in None` / `None.get`)
  is modelled in `Except Unit`;
* Python dictionaries keyed by file number are association lists with
  in-place overwrite (`setKey`), and `dict.get` / `in` are `List.lookup`.
-/

namespace RunKernel

/-- Whitespace class of Python's `\s` (ASCII range, which is all the log
format uses). -/
def isWS (c : Char) : Bool :=
  c = ' ' || c = '\t' || c = '\n' || c = '\r' || c = '\x0b' || c = '\x0c'

/-- Word-character class of Python's `\w` (ASCII range). -/
def isWord (c : Char) : Bool :=
  c.isAlphanum || c = '_'

/-- Character class of the time field pattern `[\d.]`. -/
def isDigitDot (c : Char) : Bool :=
  c.isDigit || c = '.'

/-- Python `str.strip()` on a line: drop whitespace from both ends. -/
def strip (s : List Char) : List Char :=
  ((s.dropWhile isWS).reverse.dropWhile isWS).reverse

/-- Value of a (possibly empty) run of decimal digits, most significant
first; the empty run denotes 0, exactly as in Python `float(".5")` /
`float("5.")`. -/
def natOfDigits (s : List Char) : ℕ :=
  s.foldl (fun n c => 10 * n + (c.toNat - 48)) 0

/-- Python `float(s)` for a string `s` drawn from the `[\d.]+` character
class: it succeeds iff `s` contains at most one dot and at least one digit,
and then denotes the usual decimal value (modelled exactly in `ℚ`).
Strings such as `"1.2.3"` raise `ValueError`, modelled as `none`. -/
def pyFloat (s : List Char) : Option ℚ :=
  let ip := s.takeWhile Char.isDigit
  let rest := s.drop ip.length
  match rest with
  | [] => if ip = [] then none else some (mkRat (natOfDigits ip) 1)
  | c :: fp =>
    if c = '.' then
      if fp.all Char.isDigit then
        if ip = [] && fp = [] then none
        else some (mkRat (natOfDigits ip * 10 ^ fp.length + natOfDigits fp) (10 ^ fp.length))
      else none
    else none

/-- Generic `re.search` driver: try the pattern matcher `f` at every start
position, leftmost first. -/
def searchPos (f : List Char → Option α) : List Char → Option α
  | [] => f []
  | c :: cs =>
    match f (c :: cs) with
    | some r => some r
    | none => searchPos f cs

/-- Attempt of the pattern `Test Number:\s+(\d+)` at the start of `cs`;
returns the captured digit run. -/
def tryNumber (cs : List Char) : Option (List Char) :=
  if "Test Number:".data.isPrefixOf cs then
    let cs1 := cs.drop 12
    let ws := cs1.takeWhile isWS
    let cs2 := cs1.drop ws.length
    let ds := cs2.takeWhile Char.isDigit
    if ws = [] || ds = [] then none else some ds
  else none

/-- Search of `re.search(r'Test Number:\s+(\d+)', line)`. -/
def numberMatch (line : List Char) : Option (List Char) :=
  searchPos tryNumber line

/-- Attempt of the pattern `Test:\s+(.+)` at the start of `cs`.  The source
immediately applies `.strip()` to the capture, so the stripped capture is
returned.  When only whitespace follows `Test:`, the regex still matches as
soon as at least two whitespace characters are available (`\s+` backtracks
and `.+` consumes trailing whitespace), and the stripped capture is empty. -/
def tryName (cs : List Char) : Option (List Char) :=
  if "Test:".data.isPrefixOf cs then
    let cs1 := cs.drop 5
    let ws := cs1.takeWhile isWS
    let r := cs1.drop ws.length
    if ws = [] then none
    else if r = [] then
      if ws.length ≥ 2 then some [] else none
    else some (strip r)
  else none

/-- Search of `re.search(r'Test:\s+(.+)', line)`, with the source's
`.strip()` already applied to the capture. -/
def nameMatch (line : List Char) : Option (List Char) :=
  searchPos tryName line

/-- Attempt of the pattern `(test_\w+\.py::\S+)` at the start of `cs`;
returns the whole capture.  The greedy `\w+` is deterministic because `.`
is not a word character. -/
def tryPytest (cs : List Char) : Option (List Char) :=
  if "test_".data.isPrefixOf cs then
    let cs1 := cs.drop 5
    let w := cs1.takeWhile isWord
    let cs2 := cs1.drop w.length
    if w = [] then none
    else if ".py::".data.isPrefixOf cs2 then
      let cs3 := cs2.drop 5
      let tail := cs3.takeWhile (fun c => !isWS c)
      if tail = [] then none
      else some ("test_".data ++ w ++ ".py::".data ++ tail)
    else none
  else none

/-- Search of `re.search(r'(test_\w+\.py::\S+)', line)`. -/
def pytestMatch (line : List Char) : Option (List Char) :=
  searchPos tryPytest line

/-- Attempt of the measurement pattern
`Triton-Viz:\s+execution time for\s+(\S+):\s+([\d.]+)\s+ms`
at the start of `cs`; returns (kernel capture, raw time capture).
The greedy `(\S+)` followed by `:` and `\s+` forces the colon to be the
final character of the maximal non-whitespace run, so the kernel capture is
that run without its final colon. -/
def tryMeas (cs : List Char) : Option (List Char × List Char) :=
  if "Triton-Viz:".data.isPrefixOf cs then
    let cs1 := cs.drop 11
    let w1 := cs1.takeWhile isWS
    let cs2 := cs1.drop w1.length
    if w1 = [] then none
    else if "execution time for".data.isPrefixOf cs2 then
      let cs3 := cs2.drop 18
      let w2 := cs3.takeWhile isWS
      let cs4 := cs3.drop w2.length
      if w2 = [] then none
      else
        let run := cs4.takeWhile (fun c => !isWS c)
        if run.getLast? = some ':' && run.length ≥ 2 then
          let kernel := run.dropLast
          let cs5 := cs4.drop run.length
          let w3 := cs5.takeWhile isWS
          let cs6 := cs5.drop w3.length
          if w3 = [] then none
          else
            let ds := cs6.takeWhile isDigitDot
            let cs7 := cs6.drop ds.length
            let w4 := cs7.takeWhile isWS
            let cs8 := cs7.drop w4.length
            if ds = [] || w4 = [] then none
            else if "ms".data.isPrefixOf cs8 then some (kernel, ds)
            else none
        else none
    else none
  else none

/-- Search of the measurement pattern
`re.search(r'Triton-Viz:\s+execution time for\s+(\S+):\s+([\d.]+)\s+ms', line)`. -/
def measMatch (line : List Char) : Option (List Char × List Char) :=
  searchPos tryMeas line

/-- Mutable scan state of `parse_triton_sanitizer`: the current test name,
the pending test number, and the measurements recorded so far.  The source
stores the measurements as `{test_name: [{'kernel': k, 'exec_time_ms': t}]}`;
the equivalent flat graph of that dict-of-lists, in insertion order, is kept
here as `(label, kernel, time)` triples. -/
structure ParseState where
  testName : Option (List Char)
  testNumber : Option (List Char)
  results : List (List Char × List Char × ℚ)
deriving DecidableEq, Repr

/-- Python truthiness of the optional string `test_name` (`None` and `""`
are falsy). -/
def truthy : Option (List Char) → Bool
  | none => false
  | some s => !s.isEmpty

/-- State at the start of a file scan: `test_name = None`,
`test_number = None`, empty results. -/
def initState : ParseState := ⟨none, none, []⟩

/-- Header handling of one line, in source order: the `Test Number:` match
updates the pending number, the `Test:` match sets the (possibly
number-prefixed) test name, and the pytest-identifier match overrides the
test name. -/
def applyHeaders (s : ParseState) (line : List Char) : ParseState :=
  let s1 :=
    match numberMatch line with
    | some d => { s with testNumber := some d }
    | none => s
  let s2 :=
    match nameMatch line with
    | some nm =>
      let nm2 :=
        match s1.testNumber with
        | some num => if !num.isEmpty && !nm.isEmpty then num ++ '_' :: nm else nm
        | none => nm
      { s1 with testName := some nm2 }
    | none => s1
  match pytestMatch line with
  | some pid => { s2 with testName := some pid }
  | none => s2

/-- Processing of one line: headers first, then the measurement pattern.  A
measurement is appended only when the current test name is truthy; a time
capture that `float` rejects raises `ValueError` (`Except.error`), which in
the source escapes to the per-file `except` clause. -/
def step (s : ParseState) (line : List Char) : Except Unit ParseState :=
  let s3 := applyHeaders s line
  match measMatch line with
  | some (k, t) =>
    if truthy s3.testName then
      match pyFloat t with
      | some q => Except.ok { s3 with results := s3.results ++ [(s3.testName.getD [], k, q)] }
      | none => Except.error ()
    else Except.ok s3
  | none => Except.ok s3

/-- Line-by-line scan from a given state. -/
def parseFromE (s : ParseState) : List (List Char) → Except Unit ParseState
  | [] => Except.ok s
  | l :: ls =>
    match step s l with
    | Except.ok s2 => parseFromE s2 ls
    | Except.error e => Except.error e

/-- Scan of a whole file from the initial state, returning the recorded
measurements or the escaped exception. -/
def parseLinesE (lines : List (List Char)) : Except Unit (List (List Char × List Char × ℚ)) :=
  (parseFromE initState lines).map ParseState.results

/-- The source's `parse_triton_sanitizer`: any exception raised during the
scan is caught and the file contributes an empty mapping (`return {}`). -/
def parse_triton_sanitizer (lines : List (List Char)) : List (List Char × List Char × ℚ) :=
  match parseLinesE lines with
  | Except.ok r => r
  | Except.error _ => []

/-- The file-name convention `re.search(r'^(\d+)_(.+)\.log$', name)` of
`analyze_configuration`: a leading digit run, an underscore, a nonempty base
name, and the `.log` suffix; returns (index, base name). -/
def fileIndexMatch (name : List Char) : Option (ℕ × List Char) :=
  let ds := name.takeWhile Char.isDigit
  if ds = [] then none
  else
    match name.drop ds.length with
    | [] => none
    | c :: r =>
      if c = '_' then
        if ".log".data.isSuffixOf r then
          let base := r.take (r.length - 4)
          if base = [] then none else some (natOfDigits ds, base)
        else none
      else none

/-- Per-index aggregate of `analyze_configuration`:
`{'file_name': base, 'total_ms': …, 'count': …}`. -/
structure Record where
  file_name : List Char
  total_ms : ℚ
  count : ℕ
deriving DecidableEq, Repr

/-- Total over all measurements of a parsed file, across all labels. -/
def sumTimes (es : List (List Char × List Char × ℚ)) : ℚ :=
  (es.map (fun m => m.2.2)).sum

/-- Python dict assignment `d[n] = r` on an association list: overwrite in
place, or append when the key is new. -/
def setKey (l : List (ℕ × Record)) (n : ℕ) (r : Record) : List (ℕ × Record) :=
  match l with
  | [] => [(n, r)]
  | (m, r0) :: rest => if m = n then (n, r) :: rest else (m, r0) :: setKey rest n r

/-- Body of the per-file loop of `analyze_configuration`: files whose name
does not match the index convention are skipped; a matching file's parse
result is reduced to its total and count. -/
def analyzeStep (acc : List (ℕ × Record)) (f : List Char × List (List Char)) : List (ℕ × Record) :=
  match fileIndexMatch f.1 with
  | none => acc
  | some (n, base) =>
    let es := parse_triton_sanitizer f.2
    setKey acc n ⟨base, sumTimes es, es.length⟩

/-- The `file_totals` mapping built by `analyze_configuration` over a file
list (each file given as name and content lines). -/
def analyzeFilesTotals (files : List (List Char × List (List Char))) : List (ℕ × Record) :=
  files.foldl analyzeStep []

/-- The source's `analyze_configuration`: the no-data sentinel `None` when
the located file list is empty, otherwise the (possibly empty) mapping. -/
def analyze_configuration (files : List (List Char × List (List Char))) :
    Option (List (ℕ × Record)) :=
  if files.isEmpty then none else some (analyzeFilesTotals files)

/-- Attempt of the sort-key pattern `(\d+)_` of `extract_number` at the
start of `cs`. -/
def tryIndexKey (cs : List Char) : Option ℕ :=
  let ds := cs.takeWhile Char.isDigit
  if ds = [] then none
  else
    match cs.drop ds.length with
    | [] => none
    | c :: _ => if c = '_' then some (natOfDigits ds) else none

/-- The source's `extract_number`: the first `(\d+)_` match in the file
name, or `None` (which sorts as `float('inf')`). -/
def extract_number (name : List Char) : Option ℕ :=
  searchPos tryIndexKey name

/-- Sort key of `find_log_files`: the extracted number, with `float('inf')`
modelled as `⊤`. -/
def sortKey (name : List Char) : WithTop ℕ :=
  match extract_number name with
  | some n => (n : WithTop ℕ)
  | none => ⊤

/-- Comparison used by `log_files.sort(key=extract_number)`. -/
def keyLE (a b : List Char) : Prop :=
  sortKey a ≤ sortKey b

instance : DecidableRel keyLE := fun a b => by unfold keyLE; infer_instance

instance : IsTotal (List Char) keyLE := ⟨fun a b => le_total (sortKey a) (sortKey b)⟩

instance : IsTrans (List Char) keyLE := ⟨fun _ _ _ h h2 => le_trans h h2⟩

/-- The sorting stage of `find_log_files`, applied to the deduplicated file
list.  Python's `list.sort` is stable; `List.insertionSort` with `keyLE` (a
total preorder) computes exactly the stable ascending sort.  The input list
is `list(set(log_files))`: an arbitrary, hash-determined enumeration of the
located files, not their file-system order. -/
def find_log_files (dedupOrder : List (List Char)) : List (List Char) :=
  dedupOrder.insertionSort keyLE

/-- Known repository prefixes of `format_test_name`, in source order. -/
def reposList : List (List Char) :=
  ["liger_kernel".data, "flag_gems".data, "tritonbench".data]

/-- The `file_name.startswith(r + '_')` loop of `format_test_name`:
first matching repository and the remainder after the prefix. -/
def findRepo : List (List Char) → List Char → Option (List Char × List Char)
  | [], _ => none
  | r :: rs, fn =>
    if (r ++ ['_']).isPrefixOf fn then some (r, fn.drop (r.length + 1))
    else findRepo rs fn

/-- Start positions of the non-overlapping occurrences of `test_` found by
the scanning loop of `format_test_name` (`remainder[i:].startswith('test_')`
advances by 5 on a match, by 1 otherwise). -/
def testPositions : List Char → List ℕ
  | 't' :: 'e' :: 's' :: 't' :: '_' :: rest => 0 :: (testPositions rest).map (· + 5)
  | _ :: rest => (testPositions rest).map (· + 1)
  | [] => []

/-- The source's `format_test_name`.  For ≥ 2 marker occurrences the split
keeps `remainder[:p-1]` and `remainder[p:]` where `p` is the last occurrence
start; since the last of at least two non-overlapping occurrences starts at
`p ≥ 5`, Python's `remainder[:p-1]` is the plain prefix of length `p - 1`,
which drops the separator character written just before the marker. -/
def format_test_name (fname : List Char) : List Char :=
  match findRepo reposList fname with
  | none => fname
  | some (repo, remainder) =>
    if repo = "tritonbench".data then repo ++ '/' :: remainder
    else
      let ps := testPositions remainder
      if ps.length = 0 then repo ++ '/' :: remainder
      else if ps.length = 1 then repo ++ '/' :: remainder
      else
        let p := ps.getLastD 0
        repo ++ '/' :: (remainder.take (p - 1)) ++ '/' :: remainder.drop p

/-- The per-configuration mapping type of `analyze_configuration`. -/
abbrev FileTotals := List (ℕ × Record)

/-- The `config_results` dict of `run_analysis`: every configuration name is
a key, and the stored value is either the `None` sentinel or a mapping. -/
abbrev ConfigResults := String → Option FileTotals

/-- Configuration names in order. -/
def CONFIG_NAMES : List String :=
  ["no_cache", "symbol_only", "symbol_loop", "symbol_loop_grid", "all_cache"]

/-- (name, description) pairs of the `configs` list in `run_analysis`. -/
def configsList : List (String × String) :=
  [("no_cache", "No Cache (0,0,0,0)"),
   ("symbol_only", "Symbol Only (1,0,0,0)"),
   ("symbol_loop", "Symbol + Loop (1,1,0,0)"),
   ("symbol_loop_grid", "Symbol + Loop + Grid (1,1,1,0)"),
   ("all_cache", "All Cache (1,1,1,1)")]

/-- The `config_keys` list used by the speedup loop of `run_analysis`. -/
def config_keys : List String :=
  ["symbol_only", "symbol_loop", "symbol_loop_grid", "all_cache"]

/-- Python truthiness of a stored `config_results` value: `None` and the
empty dict are falsy. -/
def truthyFT : Option FileTotals → Bool
  | some (_ :: _) => true
  | _ => false

/-- The `all_file_numbers` union of `export_to_csv`: keys of every truthy
configuration mapping, as `sorted(set(...))`. -/
def allFileNumbers (cr : ConfigResults) : List ℕ :=
  let collected := CONFIG_NAMES.foldl
    (fun acc c =>
      if truthyFT (cr c) then acc ++ ((cr c).getD []).map Prod.fst else acc)
    []
  collected.dedup.insertionSort (· ≤ ·)

/-- First loop of the row construction in `export_to_csv`: the display name
comes from the first configuration containing the index (`break`), and
evaluating `file_number in file_totals` against the `None` sentinel raises
`TypeError` (`Except.error`). -/
def findRowName (cr : ConfigResults) (n : ℕ) : List String → Except Unit (Option (List Char))
  | [] => Except.ok none
  | c :: cs =>
    match cr c with
    | none => Except.error ()
    | some ft =>
      match ft.lookup n with
      | some r => Except.ok (some r.file_name)
      | none => findRowName cr n cs

/-- Second loop of the row construction in `export_to_csv`: one value per
configuration, 0.0 when the index is absent; calling `.get` on the `None`
sentinel raises `AttributeError` (`Except.error`). -/
def rowValues (cr : ConfigResults) (n : ℕ) : List String → Except Unit (List ℚ)
  | [] => Except.ok []
  | c :: cs =>
    match cr c with
    | none => Except.error ()
    | some ft =>
      match rowValues cr n cs with
      | Except.ok rest =>
        Except.ok ((match ft.lookup n with
                    | some r => r.total_ms
                    | none => 0) :: rest)
      | Except.error e => Except.error e

/-- Row loop of `export_to_csv` over the sorted index universe; an index
whose name lookup finds no configuration is skipped (`continue`). -/
def buildRows (cr : ConfigResults) : List ℕ → Except Unit (List (List Char × List ℚ))
  | [] => Except.ok []
  | n :: ns =>
    match findRowName cr n CONFIG_NAMES with
    | Except.error e => Except.error e
    | Except.ok none => buildRows cr ns
    | Except.ok (some fname) =>
      match rowValues cr n CONFIG_NAMES with
      | Except.error e => Except.error e
      | Except.ok vals =>
        match buildRows cr ns with
        | Except.ok rest => Except.ok ((format_test_name fname, vals) :: rest)
        | Except.error e => Except.error e

/-- The source's `export_to_csv`: `Except.ok none` models the early
`return None` when no rows exist (no file written), `Except.ok (some rows)`
models the written table, and `Except.error` the uncaught exception raised
while assembling `csv_data`. -/
def export_to_csv (cr : ConfigResults) : Except Unit (Option (List (List Char × List ℚ))) :=
  let nums := allFileNumbers cr
  if nums.isEmpty then Except.ok none
  else
    match buildRows cr nums with
    | Except.ok rows => Except.ok (some rows)
    | Except.error e => Except.error e

/-- Total sum over a configuration's records:
`sum(t['total_ms'] for t in totals.values())`. -/
def sumTotals (ft : FileTotals) : ℚ :=
  (ft.map (fun p => p.2.total_ms)).sum

/-- The `summary_data` list of `run_analysis`: (description, total) for
every configuration whose totals are truthy, in declared order. -/
def summaryData (cr : ConfigResults) : List (String × ℚ) :=
  configsList.filterMap (fun p =>
    if truthyFT (cr p.1) then some (p.2, sumTotals ((cr p.1).getD [])) else none)

/-- Per-pair speedup collection of `run_analysis`: iterate the baseline
mapping in insertion order; an index also present in the comparison mapping
with both totals strictly positive contributes `baseline / comparison`.
Iterating with the comparison value being the `None` sentinel raises
`TypeError` at the first `file_number in config_totals` test. -/
def ratiosE : FileTotals → Option FileTotals → Except Unit (List ℚ)
  | [], _ => Except.ok []
  | (n, r) :: bs, oft =>
    match oft with
    | none => Except.error ()
    | some ft =>
      match ratiosE bs oft with
      | Except.error e => Except.error e
      | Except.ok rest =>
        Except.ok ((match ft.lookup n with
                    | some r2 =>
                      if 0 < r.total_ms ∧ 0 < r2.total_ms then [r.total_ms / r2.total_ms] else []
                    | none => []) ++ rest)

/-- The `for i, (config_desc, total_ms) in enumerate(summary_data[1:])`
loop: the description comes from the i-th data-having non-head entry while
the totals come from `config_keys[i]` — the pairing is positional, not by
name.  An out-of-range `config_keys[i]` would raise `IndexError`. -/
def speedupLoop (cr : ConfigResults) (b : FileTotals) :
    List (String × ℚ) → ℕ → Except Unit (List (String × ℚ × ℚ × ℚ))
  | [], _ => Except.ok []
  | (desc, _) :: more, i =>
    match config_keys.get? i with
    | none => Except.error ()
    | some key =>
      match ratiosE b (cr key) with
      | Except.error e => Except.error e
      | Except.ok rs =>
        match speedupLoop cr b more (i + 1) with
        | Except.error e => Except.error e
        | Except.ok lines =>
          Except.ok ((match rs with
                      | [] => []
                      | r :: rest2 =>
                        [(desc, rs.sum / (rs.length : ℚ), rest2.foldl min r, rest2.foldl max r)])
                     ++ lines)

/-- The speedup-summary part of `run_analysis`: runs only when
`summary_data` is nonempty and its head is the baseline description; the
emitted lines are (description, mean, min, max) per printed row.  Iterating
`baseline_totals` when `config_results['no_cache']` is the `None` sentinel
would raise `TypeError` (unreachable: the guard implies the baseline has
data). -/
def speedup_summary (cr : ConfigResults) : Except Unit (List (String × ℚ × ℚ × ℚ)) :=
  match summaryData cr with
  | [] => Except.ok []
  | (d0, _) :: rest =>
    if d0 = "No Cache (0,0,0,0)" then
      match cr "no_cache" with
      | none => Except.error ()
      | some b => speedupLoop cr b rest 0
    else Except.ok []

/-- Exit path of `run_analysis` feeding `main`'s `sys.exit`: the summary
block runs first (its exception aborts the run), then the CSV export;
`return 0 if csv_path else 1`. -/
def run_analysis (cr : ConfigResults) : Except Unit ℕ :=
  match speedup_summary cr with
  | Except.error e => Except.error e
  | Except.ok _ =>
    match export_to_csv cr with
    | Except.error e => Except.error e
    | Except.ok r => Except.ok (if r.isSome then 0 else 1)

/-- Non-baseline (description, configuration-name) pairs in declared order,
as the spec's §4.6 enumerates them. -/
def nonBaselineDescKeys : List (String × String) :=
  [("Symbol Only (1,0,0,0)", "symbol_only"),
   ("Symbol + Loop (1,1,0,0)", "symbol_loop"),
   ("Symbol + Loop + Grid (1,1,1,0)", "symbol_loop_grid"),
   ("All Cache (1,1,1,1)", "all_cache")]

/-- Comparison-side definition written from the spec's words (§4.6): the
ratio set of configuration C collects `baselineTotal[i] / C.total[i]` for
every index `i` present in both the baseline and C with both totals
strictly greater than zero. -/
def specRatios (b c : FileTotals) : List ℚ :=
  b.filterMap (fun p =>
    match c.lookup p.1 with
    | some r2 =>
      if (0 : ℚ) < p.2.total_ms ∧ (0 : ℚ) < r2.total_ms then some (p.2.total_ms / r2.total_ms)
      else none
    | none => none)

/-- Comparison-side definition written from the spec's words (§4.6): one
SpeedupSummary per non-baseline configuration — mean, minimum and maximum
of its ratio set, the summary being omitted when the ratio set is empty. -/
def specSpeedupSummary (cr : ConfigResults) : List (String × ℚ × ℚ × ℚ) :=
  nonBaselineDescKeys.filterMap (fun p =>
    match specRatios ((cr "no_cache").getD []) ((cr p.2).getD []) with
    | [] => none
    | r :: rest =>
      some (p.1, (r :: rest).sum / ((r :: rest).length : ℚ), rest.foldl min r, rest.foldl max r))

/-- Whether a file name has no parseable numeric prefix (its sort key is
`float('inf')`). -/
def keylessB (name : List Char) : Bool :=
  (extract_number name).isNone

/-- Every configuration's stored result is falsy (`None` or an empty
mapping): the no-data-at-all situation. -/
@[reducible] def allFalsy (cr : ConfigResults) : Prop :=
  ∀ c ∈ CONFIG_NAMES, truthyFT (cr c) = false

/-- Every configuration's stored result is a mapping (possibly empty), never
the `None` sentinel. -/
@[reducible] def allPresent (cr : ConfigResults) : Prop :=
  ∀ c ∈ CONFIG_NAMES, (cr c).isSome = true

/-- Every configuration's stored result is a nonempty mapping. -/
@[reducible] def allData (cr : ConfigResults) : Prop :=
  ∀ c ∈ CONFIG_NAMES, truthyFT (cr c) = true

/-- A well-formed measurement line of the documented example form. -/
def measLine : List Char :=
  "Triton-Viz: execution time for _jsd_kernel: 3.326 ms".data

/-- A `Test:` header line. -/
def lineTestFoo : List Char := "Test: foo".data

/-- A well-formed measurement line with time 1.5 ms. -/
def lineGoodMeas : List Char :=
  "Triton-Viz: execution time for k1: 1.5 ms".data

/-- A measurement line whose time field `1.2.3` matches `[\d.]+` but is not
a parseable float. -/
def lineBadMeas : List Char :=
  "Triton-Viz: execution time for k2: 1.2.3 ms".data

/-- A file holding a label line, a well-formed measurement and a malformed
one. -/
def fileGoodBad : List (List Char) := [lineTestFoo, lineGoodMeas, lineBadMeas]

deriving instance DecidableEq for Except

/-- Run in which the baseline directory is missing (`None` sentinel) while
`symbol_only` produced data. -/
def crMissingBaseline : ConfigResults := fun c =>
  if c = "no_cache" then none
  else if c = "symbol_only" then some [(1, ⟨"flag_gems_test_add".data, 12, 3⟩)]
  else some []

/-- Run in which the baseline produced data while the `symbol_only`
directory is missing (`None` sentinel). -/
def crMissingMiddle : ConfigResults := fun c =>
  if c = "no_cache" then some [(1, ⟨"x".data, 10, 1⟩)]
  else if c = "symbol_only" then none
  else some []

/-- Run in which `symbol_only` yielded an empty mapping while `no_cache`
and `symbol_loop` both have data at index 1 (totals 10 and 5). -/
def crGapMiddle : ConfigResults := fun c =>
  if c = "no_cache" then some [(1, ⟨"x".data, 10, 1⟩)]
  else if c = "symbol_loop" then some [(1, ⟨"x".data, 5, 1⟩)]
  else some []

/-- Run in which every configuration has a nonempty mapping. -/
def crFull : ConfigResults := fun c =>
  if c = "no_cache" then some [(1, ⟨"x".data, 10, 1⟩), (2, ⟨"y".data, 0, 0⟩)]
  else if c = "symbol_only" then some [(1, ⟨"x".data, 4, 1⟩)]
  else some [(1, ⟨"x".data, 5, 1⟩), (3, ⟨"z".data, 1, 1⟩)]

/-- Run in which every configuration directory is missing. -/
def crAllMissing : ConfigResults := fun _ => none

/-- Run with data only in the baseline configuration, every other
configuration being present but empty. -/
def crBaselineOnly : ConfigResults := fun c =>
  if c = "no_cache" then some [(1, ⟨"x".data, 10, 1⟩)] else some []

/-! Helper lemmas about the embedded functions. -/

/-- Scanning a concatenation of line lists sequences the two scans. -/
theorem parseFromE_append (l₁ l₂ : List (List Char)) (s : ParseState) :
    parseFromE s (l₁ ++ l₂) =
      (match parseFromE s l₁ with
       | Except.ok s2 => parseFromE s2 l₂
       | Except.error e => Except.error e) := by
  induction l₁ generalizing s with
  | nil => simp [parseFromE]
  | cons l ls ih =>
    rw [List.cons_append]
    cases hs : step s l with
    | ok s2 => simp [parseFromE, hs, ih]
    | error e => simp [parseFromE, hs]

/-- A successful `step` never changes the pending test number away from the
value set by the header pass. -/
theorem step_testNumber (s : ParseState) (l : List Char) (s2 : ParseState)
    (h : step s l = Except.ok s2) : s2.testNumber = (applyHeaders s l).testNumber := by
  unfold step at h
  cases hm : measMatch l with
  | none =>
    rw [hm] at h
    cases h
    rfl
  | some kt =>
    obtain ⟨k, t⟩ := kt
    rw [hm] at h
    dsimp only at h
    split at h
    · split at h
      · cases h
        rfl
      · simp at h
    · cases h
      rfl

/-- Lookup after a Python dict assignment finds the assigned record. -/
theorem setKey_lookup (l : List (ℕ × Record)) (n : ℕ) (r : Record) :
    (setKey l n r).lookup n = some r := by
  induction l with
  | nil => simp [setKey, List.lookup]
  | cons p rest ih =>
    obtain ⟨m, r0⟩ := p
    by_cases h : m = n
    · subst h
      simp [setKey, List.lookup]
    · have hnm : (n == m) = false := beq_eq_false_iff_ne.mpr (Ne.symm h)
      simp [setKey, h, List.lookup, ih, hnm]

/-- Iterating the baseline against a present (non-`None`) comparison mapping
never raises, and collects exactly the spec's ratio set. -/
theorem ratiosE_some (b ft : FileTotals) :
    ratiosE b (some ft) = Except.ok (specRatios b ft) := by
  induction b with
  | nil => rfl
  | cons p bs ih =>
    obtain ⟨n, r⟩ := p
    simp only [ratiosE, ih, specRatios, List.filterMap_cons]
    cases h : ft.lookup n with
    | none => simp [h, specRatios]
    | some r2 =>
      simp only [h]
      split
      · simp [specRatios]
      · simp [specRatios]

/-- Parse result extraction when the scan succeeded. -/
theorem parse_eq_of_ok (lines : List (List Char)) (es : List (List Char × List Char × ℚ))
    (h : parseLinesE lines = Except.ok es) : parse_triton_sanitizer lines = es := by
  unfold parse_triton_sanitizer
  rw [h]

/-- Parse result extraction when the scan raised. -/
theorem parse_eq_nil_of_error (lines : List (List Char))
    (h : parseLinesE lines = Except.error ()) : parse_triton_sanitizer lines = [] := by
  unfold parse_triton_sanitizer
  rw [h]

/-- Appending one file to the analysis fold processes it last. -/
theorem analyzeFilesTotals_snoc (files : List (List Char × List (List Char)))
    (f : List Char × List (List Char)) :
    analyzeFilesTotals (files ++ [f]) = analyzeStep (analyzeFilesTotals files) f := by
  unfold analyzeFilesTotals
  rw [List.foldl_append]
  rfl

/-- A name is prefix-less exactly when its sort key is infinite. -/
theorem keylessB_true_iff (y : List Char) : keylessB y = true ↔ sortKey y = ⊤ := by
  unfold keylessB sortKey
  cases h : extract_number y <;> simp

/-- Everything sorts at or before a prefix-less name. -/
theorem keyLE_of_keyless (x y : List Char) (h : keylessB y = true) : keyLE x y := by
  unfold keyLE
  rw [(keylessB_true_iff y).mp h]
  exact le_top

/-- A name that some name does not sort at-or-before has a numeric prefix. -/
theorem not_keyless_of_not_keyLE {x y : List Char} (h : ¬ keyLE x y) : keylessB y = false := by
  cases hb : keylessB y with
  | false => rfl
  | true => exact absurd (keyLE_of_keyless x y hb) h

/-- Inserting a prefix-less name prepends it to the prefix-less subsequence
(its insertion point is before the first prefix-less element). -/
theorem filter_orderedInsert_pos (x : List Char) (l : List (List Char))
    (hx : keylessB x = true) :
    (l.orderedInsert keyLE x).filter keylessB = x :: l.filter keylessB := by
  induction l with
  | nil => simp [List.orderedInsert, hx]
  | cons y ys ih =>
    by_cases h : keyLE x y
    · simp [List.orderedInsert, h, List.filter_cons, hx]
    · have hy : keylessB y = false := not_keyless_of_not_keyLE h
      simp [List.orderedInsert, h, List.filter_cons, hy, ih]

/-- Inserting a name with a numeric prefix leaves the prefix-less
subsequence unchanged. -/
theorem filter_orderedInsert_neg (x : List Char) (l : List (List Char))
    (hx : keylessB x = false) :
    (l.orderedInsert keyLE x).filter keylessB = l.filter keylessB := by
  induction l with
  | nil => simp [List.orderedInsert, hx]
  | cons y ys ih =>
    by_cases h : keyLE x y
    · simp [List.orderedInsert, h, List.filter_cons, hx]
    · cases hy : keylessB y <;> simp [List.orderedInsert, h, List.filter_cons, hy, ih]

/-- The stable sort keeps the prefix-less names in their pre-sort relative
order. -/
theorem filter_insertionSort (l : List (List Char)) :
    (l.insertionSort keyLE).filter keylessB = l.filter keylessB := by
  induction l with
  | nil => rfl
  | cons x xs ih =>
    cases hx : keylessB x with
    | false => simp [List.insertionSort, filter_orderedInsert_neg x _ hx, ih, List.filter_cons, hx]
    | true => simp [List.insertionSort, filter_orderedInsert_pos x _ hx, ih, List.filter_cons, hx]

/-- Scanning lines none of which matches any label pattern leaves the
initial state untouched: every measurement on such lines is dropped. -/
theorem parseFromE_noLabel (lines : List (List Char))
    (h : ∀ l ∈ lines, numberMatch l = none ∧ nameMatch l = none ∧ pytestMatch l = none) :
    parseFromE initState lines = Except.ok initState := by
  induction lines with
  | nil => rfl
  | cons l ls ih =>
    obtain ⟨h1, h2, h3⟩ := h l (by simp)
    have happ : applyHeaders initState l = initState := by
      unfold applyHeaders
      rw [h1, h2, h3]
    have hstep : step initState l = Except.ok initState := by
      unfold step
      rw [happ]
      cases hm : measMatch l with
      | none => rfl
      | some kt => rfl
    simp only [parseFromE, hstep]
    exact ih (fun l2 hl2 => h l2 (by simp [hl2]))

/-! Claim theorems. -/

/-- The header pass updates the pending test number exactly when the line
matches the `Test Number:` pattern, and never clears it. -/
theorem applyHeaders_testNumber (s : ParseState) (l : List Char) :
    (applyHeaders s l).testNumber =
      (match numberMatch l with
       | some d => some d
       | none => s.testNumber) := by
  unfold applyHeaders
  cases hn : numberMatch l <;> cases hm : nameMatch l <;> cases hp : pytestMatch l <;>
    simp [hn, hm, hp]

/-- C4: for every base name carrying a known grouped-repository prefix
(`liger_kernel` or `flag_gems`), normalization counts the non-overlapping
occurrences of the marker `test_` in the remainder: zero or one occurrence
yields `<repository>/<remainder>` unchanged; two or more split at the last
occurrence, everything before it minus the trailing separator character
becoming the group segment and everything from it onward the case segment.
In particular the three documented examples normalize as stated. -/
theorem c4_format_test_name :
    (∀ (fname repo rem : List Char),
        findRepo reposList fname = some (repo, rem) →
        (repo = "liger_kernel".data ∨ repo = "flag_gems".data) →
        format_test_name fname =
          (if (testPositions rem).length ≤ 1 then repo ++ '/' :: rem
           else
             repo ++ '/' :: (rem.take ((testPositions rem).getLastD 0 - 1)) ++
               '/' :: rem.drop ((testPositions rem).getLastD 0)))
    ∧ format_test_name "liger_kernel_test_fused_linear_jsd_test_correctness_functional".data =
        "liger_kernel/test_fused_linear_jsd/test_correctness_functional".data
    ∧ format_test_name "tritonbench_some_benchmark".data = "tritonbench/some_benchmark".data
    ∧ format_test_name "flag_gems_test_add".data = "flag_gems/test_add".data := by
  refine ⟨?_, by decide, by decide, by decide⟩
  intro fname repo rem hfind hrepo
  have hnt : ¬ repo = "tritonbench".data := by
    rcases hrepo with h | h <;> subst h <;> decide
  unfold format_test_name
  rw [hfind]
  dsimp only
  rw [if_neg hnt]
  rcases hps : testPositions rem with _ | ⟨a, _ | ⟨b, tail2⟩⟩
  · simp
  · simp
  · simp

/-- C4 witness: the general part of `c4_format_test_name` applied to the
concrete base name `flag_gems_test_a_test_b`. -/
theorem c4_format_test_name_witness :
    format_test_name "flag_gems_test_a_test_b".data =
      "flag_gems/test_a/test_b".data :=
  Trans.trans
    (c4_format_test_name.1 "flag_gems_test_a_test_b".data "flag_gems".data
      "test_a_test_b".data (by decide) (Or.inr rfl))
    (by decide)

/-- C9: a file named `run.log` does not match the `<index>_<base>.log`
convention, so wherever it occurs in a configuration's file list it
contributes nothing to the index-to-record mapping (and hence to no total,
count or speedup); it is nevertheless kept by the locator's sort whenever
the deduplicated enumeration contains it. -/
theorem c9_runlog_ignored :
    fileIndexMatch "run.log".data = none
    ∧ (∀ (files1 files2 : List (List Char × List (List Char))) (content : List (List Char)),
        analyzeFilesTotals (files1 ++ ("run.log".data, content) :: files2) =
          analyzeFilesTotals (files1 ++ files2))
    ∧ (∀ l : List (List Char), "run.log".data ∈ find_log_files l ↔ "run.log".data ∈ l) := by
  refine ⟨by decide, ?_, ?_⟩
  · intro files1 files2 content
    unfold analyzeFilesTotals
    rw [List.foldl_append, List.foldl_append, List.foldl_cons]
    have hstep : analyzeStep (List.foldl analyzeStep [] files1) ("run.log".data, content) =
        List.foldl analyzeStep [] files1 := by
      unfold analyzeStep
      rw [show fileIndexMatch "run.log".data = none from by decide]
    rw [hstep]
  · intro l
    exact List.mem_insertionSort keyLE

/-- C1: when one configuration's aggregation yields the `None` sentinel
(missing log directory) while another configuration has a nonempty mapping,
the claim says the report is still assembled and written; the code instead
evaluates `file_number in None` / `None.get(...)` inside `export_to_csv`
and raises, so the whole analysis aborts and no CSV is produced. -/
theorem c1_missing_config_crashes :
    crMissingBaseline "no_cache" = none
    ∧ truthyFT (crMissingBaseline "symbol_only") = true
    ∧ allFileNumbers crMissingBaseline = [1]
    ∧ export_to_csv crMissingBaseline = Except.error ()
    ∧ run_analysis crMissingBaseline = Except.error () := by
  refine ⟨rfl, by decide, by decide, by decide, by decide⟩

/-- C2 counterexample: a file consisting of a label line, a well-formed
measurement (k1, 1.5 ms) and a measurement line whose time field `1.2.3`
is unparseable.  The claim says only the malformed line is skipped and the
well-formed measurement still contributes; the code's per-file `except`
clause instead discards the whole file, so its aggregate is 0/0 even though
parsing the first two lines alone extracts the k1 measurement. -/
theorem c2_counterexample :
    measMatch lineBadMeas = some ("k2".data, "1.2.3".data)
    ∧ pyFloat "1.2.3".data = none
    ∧ parseLinesE [lineTestFoo, lineGoodMeas] = Except.ok [("foo".data, "k1".data, 3 / 2)]
    ∧ parse_triton_sanitizer fileGoodBad = []
    ∧ analyzeFilesTotals [("1_x.log".data, fileGoodBad)] = [(1, ⟨"x".data, 0, 0⟩)] := by
  refine ⟨by decide, by decide, by with_unfolding_all decide, by decide, by decide⟩

/-- C6: measurement lines occurring before any label-establishing line (no
`Test:`/`Test Number:` header and no pytest identifier on any line of the
prefix, themselves included) are silently dropped: scanning such a prefix
contributes nothing, so the file parses as if the prefix were absent; a
prefix alone parses to the empty mapping, and a file holding a single such
measurement line aggregates to a record with total 0 and count 0. -/
theorem c6_unlabeled_measurement_dropped :
    ∀ pre post : List (List Char),
      (∀ l ∈ pre, numberMatch l = none ∧ nameMatch l = none ∧ pytestMatch l = none) →
      parseLinesE (pre ++ post) = parseLinesE post
      ∧ parseLinesE pre = Except.ok []
      ∧ analyzeFilesTotals [("3_foo.log".data, pre)] = [(3, ⟨"foo".data, 0, 0⟩)] := by
  intro pre post h
  have hpre := parseFromE_noLabel pre h
  have hparse : parseLinesE pre = Except.ok [] := by
    unfold parseLinesE
    rw [hpre]
    rfl
  refine ⟨?_, hparse, ?_⟩
  · unfold parseLinesE
    rw [parseFromE_append, hpre]
  · unfold analyzeFilesTotals
    rw [List.foldl_cons]
    have : analyzeStep [] ("3_foo.log".data, pre) = [(3, ⟨"foo".data, 0, 0⟩)] := by
      unfold analyzeStep
      rw [show fileIndexMatch "3_foo.log".data = some (3, "foo".data) from by decide]
      rw [parse_eq_of_ok pre [] hparse]
      rfl
    rw [this]
    rfl

/-- C6 witness: the theorem applied with the prefix consisting of exactly
one measurement line (which matches the measurement pattern), both as a
whole file and followed by a labelled measurement. -/
theorem c6_unlabeled_measurement_dropped_witness :
    measMatch measLine = some ("_jsd_kernel".data, "3.326".data)
    ∧ (parseLinesE ([measLine] ++ [lineTestFoo, lineGoodMeas]) =
        parseLinesE [lineTestFoo, lineGoodMeas]
       ∧ parseLinesE [measLine] = Except.ok []
       ∧ analyzeFilesTotals [("3_foo.log".data, [measLine])] = [(3, ⟨"foo".data, 0, 0⟩)]) :=
  ⟨by decide, c6_unlabeled_measurement_dropped [measLine] [lineTestFoo, lineGoodMeas] (by decide)⟩

/-- C2 amended: a measurement line whose time field matches `[\d.]+` but is
rejected by `float` (e.g. `1.2.3`), reached while a label is active, aborts
parsing of that whole file: the file contributes an empty mapping — its
other well-formed measurements are lost — and its aggregate record is
total 0, count 0; the run itself continues (other files in the fold are
unaffected). -/
theorem c2_malformed_time_aborts_file :
    ∀ (lines1 lines2 : List (List Char)) (l k t : List Char) (s1 : ParseState),
      parseFromE initState lines1 = Except.ok s1 →
      measMatch l = some (k, t) →
      truthy (applyHeaders s1 l).testName = true →
      pyFloat t = none →
      parse_triton_sanitizer (lines1 ++ l :: lines2) = []
      ∧ (∀ (files : List (List Char × List (List Char))) (fname : List Char)
            (idx : ℕ) (base : List Char),
          fileIndexMatch fname = some (idx, base) →
          analyzeFilesTotals (files ++ [(fname, lines1 ++ l :: lines2)]) =
            setKey (analyzeFilesTotals files) idx ⟨base, 0, 0⟩) := by
  intro lines1 lines2 l k t s1 h1 hm ht hf
  have hstep : step s1 l = Except.error () := by
    unfold step
    rw [hm]
    dsimp only
    rw [if_pos ht, hf]
  have herr : parseFromE initState (lines1 ++ l :: lines2) = Except.error () := by
    rw [parseFromE_append, h1]
    simp only [parseFromE, hstep]
  have hparse : parse_triton_sanitizer (lines1 ++ l :: lines2) = [] := by
    apply parse_eq_nil_of_error
    unfold parseLinesE
    rw [herr]
    rfl
  refine ⟨hparse, ?_⟩
  intro files fname idx base hname
  rw [analyzeFilesTotals_snoc]
  unfold analyzeStep
  simp only [hname, hparse]
  rfl

/-- C2 witness: the amended theorem applied to the concrete file
[label line, good measurement, malformed measurement]. -/
theorem c2_malformed_time_aborts_file_witness :
    parse_triton_sanitizer ([lineTestFoo, lineGoodMeas] ++ lineBadMeas :: []) = []
    ∧ analyzeFilesTotals [("1_x.log".data, [lineTestFoo, lineGoodMeas] ++ lineBadMeas :: [])] =
        setKey (analyzeFilesTotals []) 1 ⟨"x".data, 0, 0⟩ := by
  have h := c2_malformed_time_aborts_file [lineTestFoo, lineGoodMeas] []
    lineBadMeas "k2".data "1.2.3".data
    ⟨some "foo".data, none, [("foo".data, "k1".data, mkRat 15 10)]⟩
    (by with_unfolding_all decide) (by decide) (by with_unfolding_all decide) (by decide)
  exact ⟨h.1, h.2 [] "1_x.log".data 1 "x".data (by decide)⟩

/-- C5: a well-formed measurement line processed while a label is active
appends exactly one measurement carrying its parsed time (first part),
while a line with no measurement match — header lines included — appends
none (second and third parts), so a file with exactly N such lines scans to
a list `es` of N measurements; for every file named `<index>_<base>.log`
whose scan succeeds with measurement list `es`, the configuration mapping
holds, at that index, the record with total equal to the sum of the times
of `es` and count equal to the length of `es` — in particular a file with
zero measurements still yields a 0/0 record present in the mapping rather
than an absence (fourth part). -/
theorem c5_file_aggregation :
    (∀ (s : ParseState) (l k t : List Char) (q : ℚ),
        measMatch l = some (k, t) → pyFloat t = some q →
        truthy (applyHeaders s l).testName = true →
        step s l = Except.ok { applyHeaders s l with
          results := (applyHeaders s l).results ++
            [((applyHeaders s l).testName.getD [], k, q)] })
    ∧ (∀ (s : ParseState) (l : List Char),
        measMatch l = none → step s l = Except.ok (applyHeaders s l))
    ∧ (∀ (s : ParseState) (l : List Char), (applyHeaders s l).results = s.results)
    ∧ (∀ (files : List (List Char × List (List Char))) (fname : List Char) (idx : ℕ)
          (base : List Char) (lines : List (List Char)) (es : List (List Char × List Char × ℚ)),
        fileIndexMatch fname = some (idx, base) →
        parseLinesE lines = Except.ok es →
        analyzeFilesTotals (files ++ [(fname, lines)]) =
          setKey (analyzeFilesTotals files) idx ⟨base, sumTimes es, es.length⟩
        ∧ (setKey (analyzeFilesTotals files) idx ⟨base, sumTimes es, es.length⟩).lookup idx =
            some ⟨base, sumTimes es, es.length⟩) := by
  refine ⟨?_, ?_, ?_, ?_⟩
  · intro s l k t q hm hf ht
    unfold step
    rw [hm]
    dsimp only
    rw [if_pos ht, hf]
  · intro s l hm
    unfold step
    rw [hm]
  · intro s l
    unfold applyHeaders
    cases hn : numberMatch l <;> cases hm : nameMatch l <;> cases hp : pytestMatch l <;>
      simp [hn, hm, hp]
  · intro files fname idx base lines es hname hp
    have hparse := parse_eq_of_ok lines es hp
    constructor
    · rw [analyzeFilesTotals_snoc]
      unfold analyzeStep
      simp only [hname, hparse]
    · exact setKey_lookup _ idx _

/-- C5 witness: the theorem applied to a concrete two-line file (label +
one 1.5 ms measurement), to the empty file (0/0 record still present), and
to a single step on a measurement line under an active label. -/
theorem c5_file_aggregation_witness :
    analyzeFilesTotals [("2_ab.log".data, [lineTestFoo, lineGoodMeas])] =
      [(2, ⟨"ab".data, mkRat 3 2, 1⟩)]
    ∧ analyzeFilesTotals [("9_zz.log".data, [])] = [(9, ⟨"zz".data, 0, 0⟩)]
    ∧ step ⟨some "lbl".data, none, []⟩ lineGoodMeas =
        Except.ok ⟨some "lbl".data, none, [("lbl".data, "k1".data, mkRat 3 2)]⟩ := by
  refine ⟨?_, ?_, ?_⟩
  · exact ((c5_file_aggregation.2.2.2 [] "2_ab.log".data 2 "ab".data
      [lineTestFoo, lineGoodMeas] [("foo".data, "k1".data, mkRat 15 10)]
      (by decide) (by with_unfolding_all decide)).1).trans (by with_unfolding_all decide)
  · exact ((c5_file_aggregation.2.2.2 [] "9_zz.log".data 9 "zz".data [] []
      (by decide) (by decide)).1).trans (by with_unfolding_all decide)
  · exact (c5_file_aggregation.1 ⟨some "lbl".data, none, []⟩ lineGoodMeas
      "k1".data "1.5".data (mkRat 15 10)
      (by decide) (by decide) (by decide)).trans (by with_unfolding_all decide)

/-- C8 amended: the located file list is ordered by the captured numeric
prefix, files without a parseable prefix sort after every file that has
one, and the prefix-less files keep, among themselves, the order of the
deduplicated enumeration that the sort received — which, produced by
`list(set(...))`, is an arbitrary hash-determined permutation of the
located files, not necessarily their file-system order. -/
theorem c8_sorted_by_numeric_prefix :
    ∀ dedupOrder : List (List Char),
      (find_log_files dedupOrder).Perm dedupOrder
      ∧ List.Pairwise keyLE (find_log_files dedupOrder)
      ∧ (find_log_files dedupOrder).filter keylessB = dedupOrder.filter keylessB := by
  intro l
  exact ⟨List.perm_insertionSort keyLE l, List.sorted_insertionSort keyLE l,
    filter_insertionSort l⟩

/-- C8 counterexample: two prefix-less files located in file-system order
[run.log, extra.log]; the set-based deduplication may enumerate them as
[extra.log, run.log] (a permutation), and the stable sort then emits the
prefix-less files in that order, not in file-system order — refuting the
claim that prefix-less files appear in file-system order relative to one
another. -/
theorem c8_counterexample :
    List.Perm ["extra.log".data, "run.log".data] ["run.log".data, "extra.log".data]
    ∧ keylessB "run.log".data = true
    ∧ keylessB "extra.log".data = true
    ∧ (find_log_files ["extra.log".data, "run.log".data]).filter keylessB ≠
        (["run.log".data, "extra.log".data] : List (List Char)).filter keylessB := by
  refine ⟨by decide, by decide, by decide, by decide⟩

/-- C10: within one file scan the pending test number is never cleared —
the header pass either installs the number found on the line or keeps the
previous one (first part); across any successfully scanned line list the
final pending number is the last number seen, or the initial one when the
list has none (second part); and a `Test: <name>` header line with a
nonempty stripped name and no pytest identifier yields the label
`<number>_<name>` built from the most recently seen number (third part). -/
theorem c10_test_number_persistence :
    (∀ (s : ParseState) (l : List Char),
        (applyHeaders s l).testNumber =
          (match numberMatch l with
           | some d => some d
           | none => s.testNumber))
    ∧ (∀ (lines : List (List Char)) (s s2 : ParseState),
        parseFromE s lines = Except.ok s2 →
        s2.testNumber =
          (match (lines.filterMap numberMatch).getLast? with
           | some d => some d
           | none => s.testNumber))
    ∧ (∀ (s : ParseState) (l nm num : List Char),
        nameMatch l = some nm → nm ≠ [] → pytestMatch l = none →
        (applyHeaders s l).testNumber = some num → num ≠ [] →
        (applyHeaders s l).testName = some (num ++ '_' :: nm)) := by
  refine ⟨applyHeaders_testNumber, ?_, ?_⟩
  · intro lines
    induction lines with
    | nil =>
      intro s s2 h
      cases h
      simp
    | cons l ls ih =>
      intro s s2 h
      cases hs : step s l with
      | error e => simp [parseFromE, hs] at h
      | ok s1 =>
        simp only [parseFromE, hs] at h
        have h1 := ih s1 s2 h
        have h2 := step_testNumber s l s1 hs
        rw [applyHeaders_testNumber] at h2
        rw [List.filterMap_cons]
        cases hn : numberMatch l with
        | none =>
          rw [hn] at h2
          rw [h1, h2]
        | some d =>
          rw [hn] at h2
          rw [h1, h2]
          cases hg : (ls.filterMap numberMatch).getLast? with
          | none =>
            simp [List.getLast?_cons, List.getLastD_eq_getLast?, hg]
          | some y =>
            simp [List.getLast?_cons, List.getLastD_eq_getLast?, hg]
  · intro s l nm num hnm hne hp hnum hnume
    have hempty : nm.isEmpty = false := by
      cases nm with
      | nil => exact absurd rfl hne
      | cons a tl => rfl
    have hnumempty : num.isEmpty = false := by
      cases num with
      | nil => exact absurd rfl hnume
      | cons a tl => rfl
    rw [applyHeaders_testNumber] at hnum
    unfold applyHeaders
    cases hn : numberMatch l with
    | none =>
      rw [hn] at hnum
      have hnum2 : s.testNumber = some num := hnum
      simp [hn, hnm, hp, hnum2, hempty, hnumempty]
    | some d =>
      rw [hn] at hnum
      cases hnum
      simp [hn, hnm, hp, hempty, hnumempty]

/-- C10 witness: the three parts applied to concrete states and lines — a
scan of four header lines ends with the last seen number 9, and a `Test:`
header combined with the pending number 7 yields the label `7_foo`. -/
theorem c10_test_number_persistence_witness :
    (applyHeaders ⟨none, some "4".data, []⟩ lineTestFoo).testNumber = some "4".data
    ∧ (⟨some "9_b".data, some "9".data, []⟩ : ParseState).testNumber = some "9".data
    ∧ (applyHeaders ⟨none, some "7".data, []⟩ lineTestFoo).testName =
        some ("7".data ++ '_' :: "foo".data) := by
  refine ⟨?_, ?_, ?_⟩
  · exact (c10_test_number_persistence.1 ⟨none, some "4".data, []⟩ lineTestFoo).trans
      (by decide)
  · exact c10_test_number_persistence.2.1
      ["Test Number: 7".data, "Test: a".data, "Test Number: 9".data, "Test: b".data]
      initState ⟨some "9_b".data, some "9".data, []⟩ (by decide)
  · exact c10_test_number_persistence.2.2 ⟨none, some "7".data, []⟩ lineTestFoo
      "foo".data "7".data (by decide) (by decide) (by decide) (by decide) (by decide)

/-- A stored configuration value is truthy exactly when it is a nonempty
mapping. -/
theorem truthyFT_iff (o : Option FileTotals) :
    truthyFT o = true ↔ ∃ x xs, o = some (x :: xs) := by
  cases o with
  | none => simp [truthyFT]
  | some ft =>
    cases ft with
    | nil => simp [truthyFT]
    | cons x xs => simp [truthyFT]

/-- The display-name loop cannot raise when no configuration stores the
`None` sentinel. -/
theorem findRowName_ok (cr : ConfigResults) (n : ℕ) :
    ∀ cfgs : List String, (∀ c ∈ cfgs, (cr c).isSome = true) →
      ∃ o, findRowName cr n cfgs = Except.ok o := by
  intro cfgs
  induction cfgs with
  | nil => exact fun _ => ⟨none, rfl⟩
  | cons c cs ih =>
    intro h
    have hc := h c (by simp)
    cases hcr : cr c with
    | none => rw [hcr] at hc; simp at hc
    | some ft =>
      cases hl : ft.lookup n with
      | some r => exact ⟨some r.file_name, by simp [findRowName, hcr, hl]⟩
      | none =>
        obtain ⟨o, ho⟩ := ih (fun c2 h2 => h c2 (by simp [h2]))
        exact ⟨o, by simp [findRowName, hcr, hl, ho]⟩

/-- The per-row value loop cannot raise when no configuration stores the
`None` sentinel. -/
theorem rowValues_ok (cr : ConfigResults) (n : ℕ) :
    ∀ cfgs : List String, (∀ c ∈ cfgs, (cr c).isSome = true) →
      ∃ v, rowValues cr n cfgs = Except.ok v := by
  intro cfgs
  induction cfgs with
  | nil => exact fun _ => ⟨[], rfl⟩
  | cons c cs ih =>
    intro h
    have hc := h c (by simp)
    cases hcr : cr c with
    | none => rw [hcr] at hc; simp at hc
    | some ft =>
      obtain ⟨v, hv⟩ := ih (fun c2 h2 => h c2 (by simp [h2]))
      exact ⟨(match ft.lookup n with
              | some r => r.total_ms
              | none => 0) :: v, by simp [rowValues, hcr, hv]⟩

/-- The row loop cannot raise when no configuration stores the `None`
sentinel. -/
theorem buildRows_ok (cr : ConfigResults) (h : ∀ c ∈ CONFIG_NAMES, (cr c).isSome = true) :
    ∀ ns : List ℕ, ∃ rows, buildRows cr ns = Except.ok rows := by
  intro ns
  induction ns with
  | nil => exact ⟨[], rfl⟩
  | cons n ms ih =>
    obtain ⟨rows, hr⟩ := ih
    obtain ⟨o, ho⟩ := findRowName_ok cr n CONFIG_NAMES h
    cases o with
    | none => exact ⟨rows, by simp [buildRows, ho, hr]⟩
    | some fname =>
      obtain ⟨vals, hv⟩ := rowValues_ok cr n CONFIG_NAMES h
      exact ⟨(format_test_name fname, vals) :: rows, by simp [buildRows, ho, hv, hr]⟩

/-- The speedup loop cannot raise when its positional key accesses stay in
range and no configuration stores the `None` sentinel. -/
theorem speedupLoop_ok (cr : ConfigResults) (b : FileTotals)
    (h : ∀ c ∈ CONFIG_NAMES, (cr c).isSome = true) :
    ∀ (items : List (String × ℚ)) (i : ℕ), i + items.length ≤ config_keys.length →
      ∃ v, speedupLoop cr b items i = Except.ok v := by
  intro items
  induction items with
  | nil => exact fun i _ => ⟨[], rfl⟩
  | cons p more ih =>
    obtain ⟨desc, t⟩ := p
    intro i hi
    have hlt : i < config_keys.length := by
      simp only [List.length_cons] at hi
      omega
    cases hk : config_keys[i]? with
    | none =>
      rw [List.getElem?_eq_none_iff] at hk
      omega
    | some key =>
      have hkey : key ∈ config_keys := List.getElem?_mem hk
      have hkey2 : key ∈ CONFIG_NAMES := by
        have hsub : ∀ x ∈ config_keys, x ∈ CONFIG_NAMES := by decide
        exact hsub key hkey
      have hc := h key hkey2
      cases hcr : cr key with
      | none => rw [hcr] at hc; simp at hc
      | some ft =>
        obtain ⟨v, hv⟩ := ih (i + 1) (by simp only [List.length_cons] at hi; omega)
        cases hrs : specRatios b ft with
        | nil => exact ⟨v, by simp [speedupLoop, hk, hcr, ratiosE_some, hrs, hv]⟩
        | cons r rest2 =>
          exact ⟨(desc, (r :: rest2).sum / ((r :: rest2).length : ℚ),
              rest2.foldl min r, rest2.foldl max r) :: v,
            by simp [speedupLoop, hk, hcr, ratiosE_some, hrs, hv]⟩

/-- The summary block of `run_analysis` cannot raise when no configuration
stores the `None` sentinel. -/
theorem speedup_summary_ok (cr : ConfigResults) (h : allPresent cr) :
    ∃ v, speedup_summary cr = Except.ok v := by
  have hlen : (summaryData cr).length ≤ 5 := by
    have := List.length_filterMap_le
      (fun p : String × String =>
        if truthyFT (cr p.1) then some (p.2, sumTotals ((cr p.1).getD [])) else none)
      configsList
    simpa [summaryData] using this
  unfold speedup_summary
  cases hsd : summaryData cr with
  | nil => exact ⟨[], rfl⟩
  | cons p rest =>
    obtain ⟨d0, t0⟩ := p
    by_cases hd : d0 = "No Cache (0,0,0,0)"
    · subst hd
      have hnc := h "no_cache" (by decide)
      cases hcr : cr "no_cache" with
      | none => rw [hcr] at hnc; simp at hnc
      | some b =>
        have hrest : rest.length ≤ 4 := by
          rw [hsd] at hlen
          simp only [List.length_cons] at hlen
          omega
        obtain ⟨v, hv⟩ := speedupLoop_ok cr b h rest 0
          (by simp only [config_keys, List.length_cons, List.length_nil]; omega)
        exact ⟨v, by simp [hcr, hv]⟩
    · exact ⟨[], by simp [hd]⟩

/-- C3 counterexample: `no_cache` and `symbol_loop` both have index 1 with
positive totals (10 and 5) while `symbol_only` yielded an empty mapping.
The claim demands a summary for `symbol_loop` (ratio set {2}, mean = min =
max = 2); the code prints no speedup line at all, because the positional
pairing assigns `symbol_only`'s (empty) totals to `symbol_loop`'s row. -/
theorem c3_counterexample :
    specRatios [(1, ⟨"x".data, 10, 1⟩)] [(1, ⟨"x".data, 5, 1⟩)] = [2]
    ∧ specSpeedupSummary crGapMiddle = [("Symbol + Loop (1,1,0,0)", 2, 2, 2)]
    ∧ speedup_summary crGapMiddle = Except.ok [] := by
  exact ⟨by with_unfolding_all decide, by with_unfolding_all decide,
    by with_unfolding_all decide⟩

/-- C3 amended: provided every configuration yields a nonempty mapping (so
the positional pairing of descriptions with `config_keys` is aligned), the
emitted speedup summary is exactly the spec's: for each non-baseline
configuration C in order, the ratio set collects baseline/C ratios over the
indices present in both with both totals strictly positive, the line
reports its arithmetic mean, minimum and maximum, and an empty ratio set
produces no line for C. -/
theorem c3_speedup_per_config :
    ∀ cr : ConfigResults, allData cr →
      speedup_summary cr = Except.ok (specSpeedupSummary cr) := by
  intro cr h
  obtain ⟨b0, bs0, hnc⟩ := (truthyFT_iff _).mp (h "no_cache" (by decide))
  obtain ⟨c1, cs1, hso⟩ := (truthyFT_iff _).mp (h "symbol_only" (by decide))
  obtain ⟨c2, cs2, hsl⟩ := (truthyFT_iff _).mp (h "symbol_loop" (by decide))
  obtain ⟨c3x, cs3, hsg⟩ := (truthyFT_iff _).mp (h "symbol_loop_grid" (by decide))
  obtain ⟨c4x, cs4, hac⟩ := (truthyFT_iff _).mp (h "all_cache" (by decide))
  have hsd : summaryData cr =
      [("No Cache (0,0,0,0)", sumTotals (b0 :: bs0)),
       ("Symbol Only (1,0,0,0)", sumTotals (c1 :: cs1)),
       ("Symbol + Loop (1,1,0,0)", sumTotals (c2 :: cs2)),
       ("Symbol + Loop + Grid (1,1,1,0)", sumTotals (c3x :: cs3)),
       ("All Cache (1,1,1,1)", sumTotals (c4x :: cs4))] := by
    unfold summaryData configsList
    simp [hnc, hso, hsl, hsg, hac, truthyFT]
  unfold speedup_summary
  rw [hsd]
  dsimp only
  rw [if_pos rfl, hnc]
  simp only [speedupLoop, config_keys, List.get?, hso, hsl, hsg, hac, ratiosE_some]
  unfold specSpeedupSummary nonBaselineDescKeys
  simp only [List.filterMap_cons, List.filterMap_nil, hnc, hso, hsl, hsg, hac, Option.getD]
  rcases hr1 : specRatios (b0 :: bs0) (c1 :: cs1) with _ | ⟨r1, t1⟩ <;>
    rcases hr2 : specRatios (b0 :: bs0) (c2 :: cs2) with _ | ⟨r2, t2⟩ <;>
      rcases hr3 : specRatios (b0 :: bs0) (c3x :: cs3) with _ | ⟨r3, t3⟩ <;>
        rcases hr4 : specRatios (b0 :: bs0) (c4x :: cs4) with _ | ⟨r4, t4⟩ <;>
          simp [hr1, hr2, hr3, hr4]

/-- C3 witness: the amended theorem applied to a run where all five
configurations have nonempty mappings. -/
theorem c3_speedup_per_config_witness :
    speedup_summary crFull = Except.ok (specSpeedupSummary crFull) :=
  c3_speedup_per_config crFull (by decide)

/-- C7 counterexample: at least one index exists (index 1 from `no_cache`)
but the table is not written, because the `symbol_only` sentinel makes the
row-value loop raise; this refutes the claim's second half as stated. -/
theorem c7_counterexample :
    allFileNumbers crMissingMiddle = [1]
    ∧ export_to_csv crMissingMiddle = Except.error ()
    ∧ run_analysis crMissingMiddle = Except.error () := by
  exact ⟨by decide, by decide, by with_unfolding_all decide⟩

/-- C7 amended: with an empty index universe no table is produced and the
analysis exit code is 1; and when at least one index exists **and no
configuration is the `None` sentinel**, the table is written (covering
whatever subset of configurations has data) and the exit code is 0.  (With
a `None` sentinel present alongside data the export raises instead — see
the C1/C7 counterexample theorems.) -/
theorem c7_no_rows_no_file :
    ∀ cr : ConfigResults,
      (allFalsy cr → export_to_csv cr = Except.ok none ∧ run_analysis cr = Except.ok 1)
      ∧ (allPresent cr → allFileNumbers cr ≠ [] →
          ∃ rows, export_to_csv cr = Except.ok (some rows) ∧ run_analysis cr = Except.ok 0) := by
  intro cr
  constructor
  · intro h
    have h1 := h "no_cache" (by decide)
    have h2 := h "symbol_only" (by decide)
    have h3 := h "symbol_loop" (by decide)
    have h4 := h "symbol_loop_grid" (by decide)
    have h5 := h "all_cache" (by decide)
    have hnums : allFileNumbers cr = [] := by
      unfold allFileNumbers CONFIG_NAMES
      simp [h1, h2, h3, h4, h5, List.dedup, List.insertionSort]
    have hexp : export_to_csv cr = Except.ok none := by
      unfold export_to_csv
      rw [hnums]
      rfl
    refine ⟨hexp, ?_⟩
    have hsd : summaryData cr = [] := by
      unfold summaryData configsList
      simp [h1, h2, h3, h4, h5]
    have hsum : speedup_summary cr = Except.ok [] := by
      unfold speedup_summary
      rw [hsd]
    unfold run_analysis
    rw [hsum, hexp]
    rfl
  · intro hp hne
    obtain ⟨v, hv⟩ := speedup_summary_ok cr hp
    obtain ⟨rows, hrows⟩ := buildRows_ok cr hp (allFileNumbers cr)
    have hie : (allFileNumbers cr).isEmpty = false := by
      cases hn : allFileNumbers cr with
      | nil => exact absurd hn hne
      | cons a l => rfl
    have hexp : export_to_csv cr = Except.ok (some rows) := by
      simp [export_to_csv, hie, hrows]
    refine ⟨rows, hexp, ?_⟩
    unfold run_analysis
    rw [hv, hexp]
    rfl

/-- C7 witness: the theorem applied to the all-missing run (no file, exit
1) and to a run with one index and no sentinel (file written, exit 0). -/
theorem c7_no_rows_no_file_witness :
    (export_to_csv crAllMissing = Except.ok none ∧ run_analysis crAllMissing = Except.ok 1)
    ∧ (∃ rows, export_to_csv crBaselineOnly = Except.ok (some rows)
        ∧ run_analysis crBaselineOnly = Except.ok 0) :=
  ⟨(c7_no_rows_no_file crAllMissing).1 (by decide),
   (c7_no_rows_no_file crBaselineOnly).2 (by decide) (by decide)⟩

end RunKernel
